import Mathlib

/-!
Verification of the HSBC Hong Kong credit-card statement converter
(`bank2ynab/plugins/hsbc_hk_cc_plugin.py`).

The converter's pure logic is shallowly embedded here:
Python strings are Lean `String`s (character lists where slice-level
reasoning is needed), a statement row is a record of the eight schema
columns, `pandas` grouping/aggregation is an explicit fold, and Python
exceptions (`TableSizeError`, `AssertionError`, `ValueError`) are
`Except`/`Option` failures.
-/

namespace HsbcHkCc

/-- A flattened statement row: the fixed 8-column schema
(`COLUMNS` in the plugin). -/
structure Row where
  post_date : String
  trans_date : String
  payee : String
  location : String
  country : String
  original_currency : String
  original_amount : String
  hkd_amount : String
deriving DecidableEq, Repr

instance : Inhabited Row := ⟨⟨"", "", "", "", "", "", "", ""⟩⟩

/-- A raw row of cells as produced by table extraction: a list of cells,
a cell being absent (`none`) or a string. -/
abbrev RawRow := List (Option String)

/-- A raw extracted table: a list of raw rows (`NullableTable` in the plugin). -/
abbrev RawTable := List RawRow

/-- Conversion of an 8-cell string row into the fixed schema record
(positional alignment: `pd.DataFrame(table, columns=table_cols)`). -/
def toRow (r : List String) : Row :=
  ⟨r.getD 0 "", r.getD 1 "", r.getD 2 "", r.getD 3 "",
   r.getD 4 "", r.getD 5 "", r.getD 6 "", r.getD 7 ""⟩

/-- The grouping predicate of `convert_and_process_dataframe`:
`(df["post_date"] != "") | (df["trans_date"] != "")`.  A row satisfying it
starts a new transaction group. -/
def isBoundary (r : Row) : Bool :=
  r.post_date ≠ "" || r.trans_date ≠ ""

/-- The partition induced by `df.groupby(((df["post_date"] != "") |
(df["trans_date"] != "")).cumsum())`: the cumulative sum of the boundary
indicator is constant exactly on the runs produced here, so each group is a
(possibly boundary-less leading) row followed by its non-boundary
continuation rows. -/
def groupRows : List Row → List (List Row)
  | [] => []
  | r :: rs =>
    (r :: rs.takeWhile (fun x => !isBoundary x))
      :: groupRows (rs.dropWhile (fun x => !isBoundary x))
termination_by l => l.length
decreasing_by
  simp only [List.length_cons]
  exact Nat.lt_succ_of_le (List.dropWhile_suffix _).length_le

/-- An aggregated transaction group, as produced by
`.agg(aggregators)` with `aggregators = {col: "first" for col}` overridden
by `aggregators["payee"] = list`. -/
structure AggRow where
  post_date : String
  trans_date : String
  payee : List String
  location : String
  country : String
  original_currency : String
  original_amount : String
  hkd_amount : String
deriving DecidableEq, Repr

/-- Aggregation of one group: every column takes the group's first row's
value (`"first"`), except `payee`, which becomes the list of every row's
payee cell (`list`). -/
def aggGroup (g : List Row) : AggRow :=
  let f := g.headD default
  { post_date := f.post_date
    trans_date := f.trans_date
    payee := g.map Row.payee
    location := f.location
    country := f.country
    original_currency := f.original_currency
    original_amount := f.original_amount
    hkd_amount := f.hkd_amount }

/-- The row-merging step of `convert_and_process_dataframe` (lines 184-194):
group by the cumulative boundary count, aggregate with first-value except a
payee list, and re-index. -/
def mergeRows (rows : List Row) : List AggRow :=
  (groupRows rows).map aggGroup

/-- `add_sign_to_transaction`: strings are modelled as character lists so
that Python's slicing (`amount[-2:]`, `amount[:-2]`) is
`List.drop (len - 2)` / `List.take (len - 2)`. -/
def add_sign_to_transaction (amount : List Char) : List Char :=
  if amount.drop (amount.length - 2) = ['C', 'R'] then
    amount.take (amount.length - 2)
  else
    '-' :: amount

/-- `add_sign_to_transaction` lifted back to `String` for the pipeline. -/
def addSignStr (amount : String) : String :=
  (add_sign_to_transaction amount.toList).asString

/-! ## Table extraction (`extract_tables_and_statement_date`, lines 103-144)

A page is modelled by what `page.crop(bbox).extract_table(...)` returns for
it: `none` when extraction yields `None`.  Python's truthiness test
`if extracted_page:` also rejects an empty list, so `some []` is skipped as
well.  `TableSizeError` becomes the `Except.error` branch carrying the
formatted message. -/

/-- The `TableSizeError` message raised for page `page_num` when the first
extracted row has `actual` cells but `expected` were required. -/
def tableSizeErrorMsg (page_num actual expected : Nat) : String :=
  "Table extracted from page " ++ toString page_num ++ " has "
    ++ toString actual ++ " columns, expected " ++ toString expected ++ "."

/-- The per-page loop of `extract_tables_and_statement_date`, with `page_num`
the 1-based number of the first page in `pages`: skip falsy extractions,
raise `TableSizeError` when the first row's cell count differs from
`expected`, otherwise append the table. -/
def extractTablesGo (expected : Nat) : Nat → List (Option RawTable) →
    Except String (List RawTable)
  | _, [] => .ok []
  | page_num, p :: ps =>
    match p with
    | none => extractTablesGo expected (page_num + 1) ps
    | some tbl =>
      if tbl = [] then extractTablesGo expected (page_num + 1) ps
      else if (tbl.headD []).length ≠ expected then
        .error (tableSizeErrorMsg page_num (tbl.headD []).length expected)
      else
        match extractTablesGo expected (page_num + 1) ps with
        | .error e => .error e
        | .ok ts => .ok (tbl :: ts)

/-- The table-collection part of `extract_tables_and_statement_date`:
pages are numbered from 1. -/
def extract_tables (pages : List (Option RawTable)) (expected : Nat) :
    Except String (List RawTable) :=
  extractTablesGo expected 1 pages

/-- Whether a page's extraction would trigger the column-count check and
fail it: a truthy table whose first row's cell count differs from the
expected count. -/
def pageBad (expected : Nat) (p : Option RawTable) : Bool :=
  match p with
  | none => false
  | some tbl =>
    if tbl = [] then false
    else decide ((tbl.headD []).length ≠ expected)

/-! ## Table cleaning (`flatten_and_clean_table`, lines 146-173) -/

/-- The footer marker searched for by the tail trim (spaces removed). -/
def footerMarker : String := "*Forcreditcardtransactionseffectedincurrencies"

/-- Whether a row's concatenated cell text, with spaces removed, contains the
footer marker: `"*For..." in "".join(row).replace(" ", "")`. -/
def rowHasFooterMarker (row : List String) : Bool :=
  decide (footerMarker.toList <:+:
    (String.join row).toList.filter (fun c => c ≠ ' '))

/-- Whether a row's first two cells are both empty:
`row[:2] == ["", ""]`. -/
def firstTwoCellsEmpty (row : List String) : Bool :=
  row.take 2 = ["", ""]

/-- The head trim and tail trim of `flatten_and_clean_table`: drop leading
rows whose first two cells are empty, then keep rows up to the first row
containing the footer marker. -/
def cleanRows (rows : List (List String)) : List (List String) :=
  (rows.dropWhile firstTwoCellsEmpty).takeWhile (fun r => !rowHasFooterMarker r)

/-- `flatten_and_clean_table`: flatten the per-page tables dropping each
page's header row, replace `None` cells by empty strings, drop all-empty
rows, then head-trim and tail-trim. -/
def flatten_and_clean_table (table : List RawTable) : List (List String) :=
  let flattened := (table.map (fun page => page.drop 1)).flatten
  let flattened := flattened.map (fun row => row.map (fun cell => cell.getD ""))
  let flattened := flattened.filter (fun row => row.any (fun cell => cell ≠ ""))
  cleanRows flattened

/-! ## Memo composition (`create_memo`, lines 238-273)

The `assert original_amount` failure (an `AssertionError`) is the `none`
result. -/

/-- The fixed import notice appended to every memo. -/
def importInfoText : String := "[Imported from PDF statement]"

/-- Python's `str.strip()`: remove leading and trailing whitespace
(modelled over the ASCII whitespace characters). -/
def pyStrip (s : String) : String :=
  String.mk
    (((s.data.dropWhile Char.isWhitespace).reverse.dropWhile
      Char.isWhitespace).reverse)

/-- `create_memo`: build the ordered list of memo parts, join with `"; "`,
and append the import notice.  `none` models the assertion failure when a
foreign currency is present without an amount.  Python truthiness of a
string is non-emptiness, and `str.strip` is `String.trim`. -/
def create_memo (payee_info : List String) (location country
    original_currency original_amount : String) : Option String :=
  let memo₁ : List String :=
    if location ≠ "" then
      ["Location: " ++ location ++ (if country ≠ "" then ", " ++ country else "")]
    else if country ≠ "" then
      ["Country: " ++ country]
    else []
  if original_currency ≠ "" ∧ original_amount = "" then
    none
  else
    let memo₂ := memo₁ ++
      (if original_currency ≠ "" then
        ["Original amount: " ++ original_amount ++ " " ++ original_currency]
      else [])
    let memo₃ := memo₂ ++
      (if payee_info.length > 1 then
        ["Details: " ++ String.intercalate ", " ((payee_info.drop 1).map pyStrip)]
      else [])
    let memo_str := String.intercalate "; " memo₃
    some (if memo_str ≠ "" then memo_str ++ " // " ++ importInfoText
          else importInfoText)

/-- The memo parts as the specification words them, for comparison with
`create_memo`: in order, "Location: X[, country]" if the location is
non-empty, else "Country: X" if the country is non-empty; then
"Original amount: A CUR" if the original currency is non-empty; then
"Details: d1, d2, ..." from the whitespace-trimmed payee entries after the
first, if any. -/
def memoPartsSpec (payee_info : List String) (location country
    original_currency original_amount : String) : List String :=
  (if location ≠ "" then
    ["Location: " ++ location ++ (if country ≠ "" then ", " ++ country else "")]
   else if country ≠ "" then ["Country: " ++ country] else [])
  ++ (if original_currency ≠ "" then
        ["Original amount: " ++ original_amount ++ " " ++ original_currency]
      else [])
  ++ (if payee_info.length > 1 then
        ["Details: " ++ String.intercalate ", " ((payee_info.drop 1).map pyStrip)]
      else [])

/-! ## Date resolution (`parse_and_add_year_to_date`, lines 275-289)

`datetime.strptime(date_string, "%d%b")` parses one or two digits as the
day, then a case-insensitive three-letter month abbreviation, validating
the day against the month's length in the default year 1900 (not a leap
year); any failure raises `ValueError`, modelled as `none`. -/

/-- A Python `datetime.date`: year, month, day. -/
structure PyDate where
  year : Int
  month : Nat
  day : Nat
deriving DecidableEq, Repr

/-- The lowercase three-letter month abbreviations recognised by `%b`,
in month order. -/
def monthAbbrevs : List String :=
  ["jan", "feb", "mar", "apr", "may", "jun",
   "jul", "aug", "sep", "oct", "nov", "dec"]

/-- ASCII lowercasing of a character code (`_strptime` lowercases both
sides before comparing; the abbreviations are ASCII). -/
def lowerCharCode (n : Nat) : Nat :=
  if 65 ≤ n ∧ n ≤ 90 then n + 32 else n

/-- The case-normalised character codes of a character list. -/
def lowerCodes (s : List Char) : List Nat :=
  s.map (fun c => lowerCharCode c.toNat)

/-- Month number (1-12) of a case-insensitive abbreviation, if recognised. -/
def monthFromAbbrev (s : List Char) : Option Nat :=
  (monthAbbrevs.findIdx? (fun ab => lowerCodes s = lowerCodes ab.toList)).map
    (fun i => i + 1)

/-- Days in a month of the year 1900 (`strptime`'s default year; 1900 is
not a leap year). -/
def daysInMonth1900 (m : Nat) : Nat :=
  if m = 2 then 28
  else if m = 4 ∨ m = 6 ∨ m = 9 ∨ m = 11 then 30
  else 31

/-- The numeric value of a digit string. -/
def digitsToNat (ds : List Char) : Nat :=
  ds.foldl (fun a c => 10 * a + (c.toNat - '0'.toNat)) 0

/-- `datetime.strptime(date_string, "%d%b")`, reduced to the (day, month)
pair it determines: one or two leading digits, then a month abbreviation
consuming the rest of the string, with the day valid for that month. -/
def strptimeDayMonth (s : String) : Option (Nat × Nat) :=
  let ds := s.toList.takeWhile Char.isDigit
  let rest := s.toList.dropWhile Char.isDigit
  if ds.length = 0 ∨ ds.length > 2 then none
  else
    match monthFromAbbrev rest with
    | none => none
    | some m =>
      let day := digitsToNat ds
      if 1 ≤ day ∧ day ≤ daysInMonth1900 m then some (day, m) else none

/-- The date produced by `parse_and_add_year_to_date` before output
formatting: the parsed day and month, with the year resolved against the
statement date. -/
def resolveTransactionDate (date_string : String) (statement_date : PyDate) :
    Option PyDate :=
  (strptimeDayMonth date_string).map (fun dm =>
    if dm.2 = 12 ∧ statement_date.month = 1 then
      ⟨statement_date.year - 1, dm.2, dm.1⟩
    else
      ⟨statement_date.year, dm.2, dm.1⟩)

/-- Two-digit zero padding for `strftime`'s `%d` and `%m`. -/
def pad2 (n : Nat) : String :=
  if n < 10 then "0" ++ toString n else toString n

/-- `parse_and_add_year_to_date` with the default `"%d/%m/%Y"` output
format; `none` models the `ValueError` raised by `strptime` on an
unparseable string (including the empty string). -/
def parse_and_add_year_to_date (date_string : String)
    (statement_date : PyDate) : Option String :=
  (resolveTransactionDate date_string statement_date).map (fun d =>
    pad2 d.day ++ "/" ++ pad2 d.month ++ "/" ++ toString d.year)

/-! ## The dataframe pipeline (`convert_and_process_dataframe`, lines 175-218)

After merging, pandas applies each transform to the whole column before the
next one: memo composition over all groups, then payee finalization, then
date resolution, then amount signing.  Each Python exception aborts the
whole conversion, so each stage is an `Except`-monadic map over the
groups. -/

/-- A fully processed output row: the eight schema columns (payee finalized,
dates resolved, amount signed) plus the composed memo. -/
structure OutRow where
  post_date : String
  trans_date : String
  payee : String
  location : String
  country : String
  original_currency : String
  original_amount : String
  hkd_amount : String
  memo : String
deriving DecidableEq, Repr

/-- Memo composition on a merged group, with the `AssertionError` text as
the failure. -/
def memoOfGroup (g : AggRow) : Except String String :=
  match create_memo g.payee g.location g.country g.original_currency
      g.original_amount with
  | some m => .ok m
  | none => .error "AssertionError: A foreign currency symbol exists, but no corresponding amount"

/-- Date resolution on one date cell, with the `ValueError` text as the
failure. -/
def dateOfCell (statement_date : PyDate) (cell : String) :
    Except String String :=
  match parse_and_add_year_to_date cell statement_date with
  | some s => .ok s
  | none => .error ("ValueError: time data " ++ cell ++ " does not match format %d%b")

/-- Assembly of the output rows from the merged groups and the
already-computed memo, post-date and trans-date columns.  `payee` becomes
the first element of the payee list (`x[0]`; merged groups are never empty,
so the default is never used), and `hkd_amount` gets its sign. -/
def buildOutRows : List AggRow → List String → List String → List String →
    List OutRow
  | g :: gs, m :: ms, p :: ps, t :: ts =>
    { post_date := p
      trans_date := t
      payee := g.payee.headD ""
      location := g.location
      country := g.country
      original_currency := g.original_currency
      original_amount := g.original_amount
      hkd_amount := addSignStr g.hkd_amount
      memo := m } :: buildOutRows gs ms ps ts
  | _, _, _, _ => []

/-- `convert_and_process_dataframe`: an empty cleaned table short-circuits
to an empty result (with a logged warning); otherwise merge continuation
rows, compose memos, finalize payees, resolve both date columns, and sign
the amounts, any raised exception aborting the conversion. -/
def convert_and_process_dataframe (table : List Row)
    (statement_date : PyDate) : Except String (List OutRow) :=
  if table = [] then .ok []
  else
    let groups := mergeRows table
    match groups.mapM memoOfGroup with
    | .error e => .error e
    | .ok memos =>
      match groups.mapM (fun g => dateOfCell statement_date g.post_date) with
      | .error e => .error e
      | .ok postDates =>
        match groups.mapM (fun g => dateOfCell statement_date g.trans_date) with
        | .error e => .error e
        | .ok transDates =>
          .ok (buildOutRows groups memos postDates transDates)

/-! ## Helper lemmas -/

theorem dropWhile_head_false {α : Type} (p : α → Bool) :
    ∀ (l : List α) (x : α) (xs : List α), l.dropWhile p = x :: xs → p x = false := by
  intro l
  induction l with
  | nil => intro x xs h; simp [List.dropWhile] at h
  | cons a t ih =>
    intro x xs h
    rw [List.dropWhile_cons] at h
    by_cases hp : p a
    · rw [if_pos hp] at h
      exact ih x xs h
    · rw [if_neg hp] at h
      cases h
      exact Bool.eq_false_iff.mpr hp

theorem takeWhile_head? {α : Type} (q : α → Bool) :
    ∀ (l : List α) (x : α) (xs : List α), l.takeWhile q = x :: xs →
      l.head? = some x ∧ q x = true := by
  intro l
  induction l with
  | nil => intro x xs h; simp [List.takeWhile] at h
  | cons a t _ =>
    intro x xs h
    rw [List.takeWhile_cons] at h
    by_cases hq : q a
    · rw [if_pos hq] at h
      cases h
      exact ⟨rfl, hq⟩
    · rw [if_neg hq] at h
      cases h

theorem takeWhile_nil_dropWhile {α : Type} (q : α → Bool) (l : List α)
    (h : l.takeWhile q = []) : l.dropWhile q = l := by
  cases l with
  | nil => rfl
  | cons a t =>
    rw [List.takeWhile_cons] at h
    by_cases hq : q a
    · rw [if_pos hq] at h; cases h
    · rw [List.dropWhile_cons, if_neg hq]

theorem string_append_ne_empty_left (a t : String) (h : a ≠ "") :
    a ++ t ≠ "" := by
  intro he
  apply h
  have hd : (a ++ t).data = ([] : List Char) := by rw [he]
  rw [String.data_append, List.append_eq_nil] at hd
  exact String.ext_iff.mpr hd.1

theorem intercalate_go_ex (s : String) :
    ∀ (as : List String) (acc : String),
      ∃ t, String.intercalate.go acc s as = acc ++ t := by
  intro as
  induction as with
  | nil =>
    intro acc
    exact ⟨"", by simp [String.intercalate.go]⟩
  | cons a xs ih =>
    intro acc
    obtain ⟨t, ht⟩ := ih (acc ++ s ++ a)
    refine ⟨s ++ a ++ t, ?_⟩
    rw [String.intercalate.go, ht]
    simp [String.append_assoc]

theorem intercalate_cons_ne_empty (s a : String) (as : List String)
    (h : a ≠ "") : String.intercalate s (a :: as) ≠ "" := by
  rw [String.intercalate]
  obtain ⟨t, ht⟩ := intercalate_go_ex s as a
  rw [ht]
  exact string_append_ne_empty_left a t h

theorem exceptMapM_ok_mem {ε α β : Type} (f : α → Except ε β) :
    ∀ (l : List α) (ys : List β), l.mapM f = Except.ok ys →
      ∀ x ∈ l, ∃ y, f x = Except.ok y := by
  intro l
  induction l with
  | nil => simp
  | cons a t ih =>
    intro ys h x hx
    rw [List.mapM_cons] at h
    cases hfa : f a with
    | error e =>
      rw [hfa] at h
      simp [Bind.bind, Except.bind] at h
    | ok b =>
      rw [hfa] at h
      cases hmt : t.mapM f with
      | error e =>
        rw [hmt] at h
        simp [Bind.bind, Except.bind] at h
      | ok bs =>
        rcases List.mem_cons.mp hx with rfl | hx'
        · exact ⟨b, hfa⟩
        · exact ih bs hmt x hx'

theorem ends_cr_drop (l t : List Char) (h : l = t ++ ['C', 'R']) :
    l.drop (l.length - 2) = ['C', 'R'] := by
  subst h
  have hlen : (t ++ ['C', 'R']).length - 2 = t.length := by simp
  rw [hlen, List.drop_left]

/-! ## Claim theorems -/

/-- C2: `add_sign_to_transaction` maps a string ending in the literal
suffix "CR" to the same string with that two-character suffix removed and
no sign added, and maps every other string to itself prefixed with "-";
in particular "1,234.56CR" maps to "1,234.56" and "1,234.56" maps to
"-1,234.56". -/
theorem add_sign_spec (amount : List Char) :
    (∀ t, amount = t ++ ['C', 'R'] → add_sign_to_transaction amount = t) ∧
    ((¬ ∃ t, amount = t ++ ['C', 'R']) →
      add_sign_to_transaction amount = '-' :: amount) ∧
    add_sign_to_transaction "1,234.56CR".toList = "1,234.56".toList ∧
    add_sign_to_transaction "1,234.56".toList = "-1,234.56".toList := by
  refine ⟨?_, ?_, by decide, by decide⟩
  · intro t ht
    subst ht
    unfold add_sign_to_transaction
    have hlen : (t ++ ['C', 'R']).length - 2 = t.length := by simp
    rw [hlen, List.drop_left, if_pos rfl, List.take_left]
  · intro hne
    unfold add_sign_to_transaction
    rw [if_neg]
    intro hd
    apply hne
    refine ⟨amount.take (amount.length - 2), ?_⟩
    conv_lhs => rw [← List.take_append_drop (amount.length - 2) amount]
    rw [hd]

/-- C2 witness: concrete instantiations of both cases. -/
theorem add_sign_spec_witness :
    add_sign_to_transaction "12.00CR".toList = "12.00".toList ∧
    add_sign_to_transaction "12.00".toList = '-' :: "12.00".toList := by
  constructor
  · exact (add_sign_spec "12.00CR".toList).1 "12.00".toList (by decide)
  · exact (add_sign_spec "12.00".toList).2.1
      (fun ⟨t, ht⟩ => absurd (ends_cr_drop _ t ht) (by decide))

/-- C3: for every date string parseable as day+abbreviated-month and every
statement date, the resolved transaction date's year equals
(statement year − 1) exactly when the parsed month is December and the
statement month is January, and equals the statement year otherwise;
"15Dec" with statement date 2024-01-10 resolves to year 2023 and "05Jan"
with the same statement date resolves to year 2024. -/
theorem date_year_resolution :
    (∀ (s : String) (stmt : PyDate) (d m : Nat),
      strptimeDayMonth s = some (d, m) →
      ∃ r, resolveTransactionDate s stmt = some r ∧ r.day = d ∧ r.month = m ∧
        (r.year = stmt.year - 1 ↔ (m = 12 ∧ stmt.month = 1)) ∧
        (¬ (m = 12 ∧ stmt.month = 1) → r.year = stmt.year)) ∧
    resolveTransactionDate "15Dec" ⟨2024, 1, 10⟩ = some ⟨2023, 12, 15⟩ ∧
    resolveTransactionDate "05Jan" ⟨2024, 1, 10⟩ = some ⟨2024, 1, 5⟩ := by
  refine ⟨?_, by decide, by decide⟩
  intro s stmt d m h
  unfold resolveTransactionDate
  rw [h, Option.map_some']
  by_cases hc : m = 12 ∧ stmt.month = 1
  · refine ⟨⟨stmt.year - 1, m, d⟩, ?_, rfl, rfl, ?_, ?_⟩
    · simp [hc]
    · simp [hc]
    · intro hn; exact absurd hc hn
  · refine ⟨⟨stmt.year, m, d⟩, ?_, rfl, rfl, ?_, fun _ => rfl⟩
    · simp only [if_neg hc]
    · constructor
      · intro hy
        exfalso
        have hy' : stmt.year = stmt.year - 1 := hy
        omega
      · intro hc'; exact absurd hc' hc

/-- C3 witness: the general statement applied at "15Dec" against statement
date 2024-01-10. -/
theorem date_year_resolution_witness :
    ∃ r, resolveTransactionDate "15Dec" ⟨2024, 1, 10⟩ = some r ∧
      r.day = 15 ∧ r.month = 12 ∧
      (r.year = (2024 : Int) - 1 ↔ (12 = 12 ∧ 1 = 1)) ∧
      (¬ ((12 : Nat) = 12 ∧ (1 : Nat) = 1) → r.year = 2024) :=
  date_year_resolution.1 "15Dec" ⟨2024, 1, 10⟩ 15 12 (by decide)

/-- C7: memo composition fails with an assertion error exactly when
`original_currency` is non-empty and `original_amount` is empty; when
`original_currency` is empty, no assertion is triggered regardless of
`original_amount`. -/
theorem memo_assertion_iff (payee_info : List String)
    (location country original_currency original_amount : String) :
    (create_memo payee_info location country original_currency
        original_amount = none ↔
      (original_currency ≠ "" ∧ original_amount = "")) ∧
    (original_currency = "" →
      ∃ m, create_memo payee_info location country original_currency
        original_amount = some m) := by
  constructor
  · unfold create_memo
    by_cases hc : original_currency ≠ "" ∧ original_amount = ""
    · simp only [if_pos hc]
      exact iff_of_true trivial hc
    · simp only [if_neg hc]
      exact iff_of_false (by simp) hc
  · intro hoc
    unfold create_memo
    rw [if_neg (by simp [hoc])]
    exact ⟨_, rfl⟩

/-- C7 witness: concrete instantiation at a currency without an amount, and
at an empty currency with an empty amount. -/
theorem memo_assertion_iff_witness :
    create_memo ["A"] "" "" "USD" "" = none ∧
    (∃ m, create_memo ["A"] "" "" "" "" = some m) := by
  constructor
  · exact (memo_assertion_iff ["A"] "" "" "USD" "").1.mpr ⟨by decide, rfl⟩
  · exact (memo_assertion_iff ["A"] "" "" "" "").2 rfl

theorem parts_ne_empty (p : List String) (l c oc oa : String) :
    ∀ x ∈ memoPartsSpec p l c oc oa, x ≠ "" := by
  intro x hx
  unfold memoPartsSpec at hx
  rcases List.mem_append.mp hx with hx1 | hx2
  · rcases List.mem_append.mp hx1 with hA | hB
    · split at hA
      · rcases List.mem_singleton.mp hA with rfl
        exact string_append_ne_empty_left "Location: " _ (by decide)
      · split at hA
        · rcases List.mem_singleton.mp hA with rfl
          exact string_append_ne_empty_left "Country: " _ (by decide)
        · cases hA
    · split at hB
      · rcases List.mem_singleton.mp hB with rfl
        exact string_append_ne_empty_left "Original amount: " _ (by decide)
      · cases hB
  · split at hx2
    · rcases List.mem_singleton.mp hx2 with rfl
      exact string_append_ne_empty_left "Details: " _ (by decide)
    · cases hx2

theorem intercalate_empty_iff (l : List String) (h : ∀ x ∈ l, x ≠ "") :
    (String.intercalate "; " l = "" ↔ l = []) := by
  cases l with
  | nil => simp [String.intercalate]
  | cons a as =>
    constructor
    · intro he
      exact absurd he
        (intercalate_cons_ne_empty "; " a as (h a (List.mem_cons_self a as)))
    · intro h'; cases h'

/-- C4: the memo is the "; "-join of the ordered memo parts ("Location: X"
optionally extended with ", country" when the location is non-empty, else
"Country: X" when the country is non-empty; "Original amount: A CUR" when
the original currency is non-empty; "Details: ..." from the trimmed payee
entries after the first), suffixed with " // [Imported from PDF statement]"
when any part applied, and exactly "[Imported from PDF statement]" when
none applied. -/
theorem memo_composition (payee_info : List String)
    (location country original_currency original_amount : String)
    (h : ¬ (original_currency ≠ "" ∧ original_amount = "")) :
    create_memo payee_info location country original_currency original_amount =
      some (if memoPartsSpec payee_info location country original_currency
              original_amount = []
            then importInfoText
            else String.intercalate "; " (memoPartsSpec payee_info location
                   country original_currency original_amount)
                 ++ " // " ++ importInfoText) ∧
    create_memo ["ACME STORE", "ref 123"] "" "US" "" "" =
      some "Country: US; Details: ref 123 // [Imported from PDF statement]" := by
  constructor
  · unfold create_memo
    rw [if_neg h]
    dsimp only
    have hbridge := intercalate_empty_iff
      (memoPartsSpec payee_info location country original_currency
        original_amount)
      (parts_ne_empty payee_info location country original_currency
        original_amount)
    by_cases hp : memoPartsSpec payee_info location country original_currency
        original_amount = []
    · rw [if_pos hp]
      have hstr : String.intercalate "; " (memoPartsSpec payee_info location
          country original_currency original_amount) = "" := hbridge.mpr hp
      unfold memoPartsSpec at hstr hp
      rw [hp] at hstr ⊢
      simp [String.intercalate]
    · rw [if_neg hp]
      have hstr : String.intercalate "; " (memoPartsSpec payee_info location
          country original_currency original_amount) ≠ "" :=
        fun he => hp (hbridge.mp he)
      unfold memoPartsSpec at hstr
      rw [if_pos hstr]
      rfl
  · rfl

theorem extractGo_ok_no_bad (expected : Nat) :
    ∀ (pages : List (Option RawTable)) (n : Nat) (ts : List RawTable),
      extractTablesGo expected n pages = .ok ts →
      (∀ p ∈ pages, pageBad expected p = false) ∧
      (∀ t ∈ ts, (t.headD []).length = expected) := by
  intro pages
  induction pages with
  | nil =>
    intro n ts h
    refine ⟨by simp, ?_⟩
    rw [extractTablesGo] at h
    cases h
    simp
  | cons p ps ih =>
    intro n ts h
    cases p with
    | none =>
      rw [extractTablesGo] at h
      obtain ⟨hps, hts⟩ := ih (n + 1) ts h
      refine ⟨?_, hts⟩
      intro q hq
      rcases List.mem_cons.mp hq with rfl | hq'
      · rfl
      · exact hps q hq'
    | some tbl =>
      rw [extractTablesGo] at h
      by_cases htnil : tbl = []
      · rw [if_pos htnil] at h
        obtain ⟨hps, hts⟩ := ih (n + 1) ts h
        refine ⟨?_, hts⟩
        intro q hq
        rcases List.mem_cons.mp hq with rfl | hq'
        · simp [pageBad, htnil]
        · exact hps q hq'
      · rw [if_neg htnil] at h
        by_cases hlen : (tbl.headD []).length ≠ expected
        · rw [if_pos hlen] at h
          cases h
        · rw [if_neg hlen] at h
          cases hrec : extractTablesGo expected (n + 1) ps with
          | error e => rw [hrec] at h; cases h
          | ok ts' =>
            rw [hrec] at h
            cases h
            obtain ⟨hps, hts⟩ := ih (n + 1) ts' hrec
            constructor
            · intro q hq
              rcases List.mem_cons.mp hq with rfl | hq'
              · simp only [pageBad, if_neg htnil]
                exact decide_eq_false hlen
              · exact hps q hq'
            · intro t ht
              rcases List.mem_cons.mp ht with rfl | ht'
              · exact not_not.mp hlen
              · exact hts t ht'

theorem extractGo_first_bad (expected : Nat) :
    ∀ (pages : List (Option RawTable)) (n i : Nat) (tbl : RawTable),
      pages.getD i none = some tbl → tbl ≠ [] →
      (tbl.headD []).length ≠ expected →
      (∀ j, j < i → pageBad expected (pages.getD j none) = false) →
      extractTablesGo expected n pages =
        .error (tableSizeErrorMsg (n + i) (tbl.headD []).length expected) := by
  intro pages
  induction pages with
  | nil =>
    intro n i tbl hget
    simp [List.getD] at hget
  | cons p ps ih =>
    intro n i tbl hget htnil hlen hfirst
    cases i with
    | zero =>
      simp [List.getD] at hget
      subst hget
      rw [extractTablesGo, if_neg htnil, if_pos hlen, Nat.add_zero]
    | succ i' =>
      have hget' : ps.getD i' none = some tbl := hget
      have hp0 : pageBad expected p = false := hfirst 0 (Nat.succ_pos i')
      have hfirst' : ∀ j, j < i' → pageBad expected (ps.getD j none) = false :=
        fun j hj => hfirst (j + 1) (Nat.succ_lt_succ hj)
      have harith : n + 1 + i' = n + (i' + 1) := by omega
      cases p with
      | none =>
        rw [extractTablesGo, ih (n + 1) i' tbl hget' htnil hlen hfirst', harith]
      | some tbl' =>
        simp only [pageBad] at hp0
        by_cases ht'nil : tbl' = []
        · rw [extractTablesGo, if_pos ht'nil,
            ih (n + 1) i' tbl hget' htnil hlen hfirst', harith]
        · rw [if_neg ht'nil] at hp0
          have hlen' : ¬ (tbl'.headD []).length ≠ expected := by
            simpa using hp0
          rw [extractTablesGo, if_neg ht'nil, if_neg hlen',
            ih (n + 1) i' tbl hget' htnil hlen hfirst', harith]

/-- C5: a page whose extracted table's first-row column count differs from
the expected 8 makes extraction fail with a `TableSizeError` naming the
offending page number and the actual and expected counts; extraction
succeeds only if no page is bad, and no accepted table has a column count
other than 8. -/
theorem table_size_error :
    (∀ (pages : List (Option RawTable)) (ts : List RawTable),
      extract_tables pages 8 = .ok ts →
      (∀ p ∈ pages, pageBad 8 p = false) ∧
      (∀ t ∈ ts, (t.headD []).length = 8)) ∧
    (∀ (pages : List (Option RawTable)) (i : Nat) (tbl : RawTable),
      pages.getD i none = some tbl → tbl ≠ [] →
      (tbl.headD []).length ≠ 8 →
      (∀ j, j < i → pageBad 8 (pages.getD j none) = false) →
      extract_tables pages 8 =
        .error (tableSizeErrorMsg (i + 1) (tbl.headD []).length 8)) := by
  constructor
  · intro pages ts h
    exact extractGo_ok_no_bad 8 pages 1 ts h
  · intro pages i tbl hget htnil hlen hfirst
    have := extractGo_first_bad 8 pages 1 i tbl hget htnil hlen hfirst
    rwa [Nat.add_comm 1 i] at this

/-- C5 witness: a 1-column table on page 2 (page 1 yields no table) raises
the error naming page 2 and the counts 1 and 8. -/
theorem table_size_error_witness :
    extract_tables [none, some [[some "a"]]] 8 =
      .error (tableSizeErrorMsg 2 1 8) := by
  have h := table_size_error.2 [none, some [[some "a"]]] 1 [[some "a"]]
    rfl (by decide) (by decide)
    (fun j hj => by
      have hj0 : j = 0 := by omega
      subst hj0
      rfl)
  exact h

theorem extractGo_ok_of_first_rows (expected : Nat) :
    ∀ (pages : List (Option RawTable)) (n : Nat),
      (∀ tbl, some tbl ∈ pages → tbl ≠ [] → (tbl.headD []).length = expected) →
      ∃ ts, extractTablesGo expected n pages = .ok ts := by
  intro pages
  induction pages with
  | nil => intro n _; exact ⟨[], rfl⟩
  | cons p ps ih =>
    intro n h
    cases p with
    | none =>
      rw [extractTablesGo]
      exact ih (n + 1) (fun tbl hm ht => h tbl (List.mem_cons_of_mem _ hm) ht)
    | some tbl =>
      by_cases htnil : tbl = []
      · rw [extractTablesGo, if_pos htnil]
        exact ih (n + 1) (fun t hm ht => h t (List.mem_cons_of_mem _ hm) ht)
      · have hlen : (tbl.headD []).length = expected :=
          h tbl (List.mem_cons_self _ _) htnil
        obtain ⟨ts, hts⟩ :=
          ih (n + 1) (fun t hm ht => h t (List.mem_cons_of_mem _ hm) ht)
        refine ⟨tbl :: ts, ?_⟩
        rw [extractTablesGo, if_neg htnil, if_neg (not_not_intro hlen), hts]

/-- C10: the column-count check inspects only the first row of each page's
extracted table: a page whose extraction is `None` or an empty table is
silently skipped, and whenever every truthy table's first row has exactly 8
cells, extraction succeeds with no error even if later rows of a table have
a different number of cells. -/
theorem column_check_first_row_only :
    (∀ (expected n : Nat) (ps : List (Option RawTable)),
      extractTablesGo expected n (none :: ps) =
        extractTablesGo expected (n + 1) ps) ∧
    (∀ (expected n : Nat) (ps : List (Option RawTable)),
      extractTablesGo expected n (some [] :: ps) =
        extractTablesGo expected (n + 1) ps) ∧
    (∀ pages : List (Option RawTable),
      (∀ tbl, some tbl ∈ pages → tbl ≠ [] → (tbl.headD []).length = 8) →
      ∃ ts, extract_tables pages 8 = .ok ts) ∧
    extract_tables
      [some [[some "1", none, some "3", none, none, none, none, some "8"],
             [some "a"]]] 8 =
      .ok [[[some "1", none, some "3", none, none, none, none, some "8"],
            [some "a"]]] := by
  refine ⟨?_, ?_, ?_, by rfl⟩
  · intro expected n ps
    rw [extractTablesGo]
  · intro expected n ps
    rw [extractTablesGo, if_pos rfl]
  · intro pages h
    exact extractGo_ok_of_first_rows 8 pages 1 h

/-- C10 witness: a single page whose first extracted row has 8 cells and
whose second row has 1 cell passes the check. -/
theorem column_check_first_row_only_witness :
    ∃ ts, extract_tables
      [some [[some "1", none, some "3", none, none, none, none, some "8"],
             [some "a"]]] 8 = .ok ts := by
  refine column_check_first_row_only.2.2.1
    [some [[some "1", none, some "3", none, none, none, none, some "8"],
           [some "a"]]] ?_
  intro tbl hm ht
  have htbl : tbl =
      [[some "1", none, some "3", none, none, none, none, some "8"],
       [some "a"]] := by
    simpa using hm
  subst htbl
  rfl

/-- C8: an input whose flattened and cleaned row sequence is empty converts
to an empty result set without raising any error. -/
theorem empty_table_empty_result :
    (∀ stmt : PyDate, convert_and_process_dataframe [] stmt = .ok []) ∧
    (∀ (tables : List RawTable) (stmt : PyDate),
      flatten_and_clean_table tables = [] →
      convert_and_process_dataframe
        ((flatten_and_clean_table tables).map toRow) stmt = .ok []) := by
  constructor
  · intro stmt; rfl
  · intro tables stmt h
    rw [h]
    rfl

/-- C8 witness: a one-page table whose only row is the header cleans to
nothing and converts to an empty result. -/
theorem empty_table_empty_result_witness :
    flatten_and_clean_table [[[some "h"]]] = [] ∧
    convert_and_process_dataframe
      ((flatten_and_clean_table [[[some "h"]]]).map toRow) ⟨2024, 1, 10⟩ =
        .ok [] :=
  ⟨rfl, empty_table_empty_result.2 [[[some "h"]]] ⟨2024, 1, 10⟩ rfl⟩

theorem groupRows_flatten (rows : List Row) :
    (groupRows rows).flatten = rows := by
  induction rows using groupRows.induct with
  | case1 => rw [groupRows]; rfl
  | case2 r rs ih =>
    rw [groupRows]
    simp only [List.flatten_cons, ih]
    rw [List.cons_append, List.takeWhile_append_dropWhile]

theorem groupRows_ne_nil (rows : List Row) : ∀ g ∈ groupRows rows, g ≠ [] := by
  induction rows using groupRows.induct with
  | case1 => rw [groupRows]; intro g hg; cases hg
  | case2 r rs ih =>
    rw [groupRows]
    intro g hg
    rcases List.mem_cons.mp hg with rfl | hg'
    · exact List.cons_ne_nil r _
    · exact ih g hg'

theorem groupRows_tail_not_boundary (rows : List Row) :
    ∀ g ∈ groupRows rows, ∀ x ∈ g.tail, isBoundary x = false := by
  induction rows using groupRows.induct with
  | case1 => rw [groupRows]; intro g hg; cases hg
  | case2 r rs ih =>
    rw [groupRows]
    intro g hg x hx
    rcases List.mem_cons.mp hg with rfl | hg'
    · have := List.mem_takeWhile_imp hx
      simpa using this
    · exact ih g hg' x hx

theorem groupRows_heads_boundary (rows : List Row)
    (h : ∀ x, rows.head? = some x → isBoundary x = true) :
    ∀ g ∈ groupRows rows, isBoundary (g.headD default) = true := by
  induction rows using groupRows.induct with
  | case1 => rw [groupRows]; intro g hg; cases hg
  | case2 r rs ih =>
    rw [groupRows]
    intro g hg
    rcases List.mem_cons.mp hg with rfl | hg'
    · exact h r rfl
    · refine ih ?_ g hg'
      intro x hx
      cases hdw : rs.dropWhile (fun x => !isBoundary x) with
      | nil => rw [hdw] at hx; cases hx
      | cons y ys =>
        have hb := dropWhile_head_false (fun x => !isBoundary x) rs y ys hdw
        rw [hdw] at hx
        simp only [List.head?_cons, Option.some.injEq] at hx
        subst hx
        simpa using hb

theorem groupRows_tail_heads (rows : List Row) :
    ∀ g ∈ (groupRows rows).tail, isBoundary (g.headD default) = true := by
  cases rows with
  | nil => rw [groupRows]; intro g hg; cases hg
  | cons r rs =>
    rw [groupRows]
    simp only [List.tail_cons]
    refine groupRows_heads_boundary _ ?_
    intro x hx
    cases hdw : rs.dropWhile (fun x => !isBoundary x) with
    | nil => rw [hdw] at hx; cases hx
    | cons y ys =>
      have hb := dropWhile_head_false (fun x => !isBoundary x) rs y ys hdw
      rw [hdw] at hx
      simp only [List.head?_cons, Option.some.injEq] at hx
      subst hx
      simpa using hb

/-- C1: row merging partitions the cleaned rows into transaction groups —
the groups concatenate back to the input, are non-empty, contain boundary
rows (non-empty post_date or trans_date) only as their first row (and every
group after the first, and under the head-trim guarantee every group,
starts with a boundary row) — and emits exactly one output row per group
carrying the group's first row's value in every column except payee, which
is the ordered list of every row's payee cell in the group. -/
theorem merge_rows_grouping (rows : List Row) :
    ∃ P : List (List Row),
      P.flatten = rows ∧
      (∀ g ∈ P, g ≠ []) ∧
      (∀ g ∈ P, ∀ x ∈ g.tail, isBoundary x = false) ∧
      (∀ g ∈ P.tail, isBoundary (g.headD default) = true) ∧
      ((∀ x, rows.head? = some x → isBoundary x = true) →
        ∀ g ∈ P, isBoundary (g.headD default) = true) ∧
      mergeRows rows = P.map (fun g =>
        { post_date := (g.headD default).post_date
          trans_date := (g.headD default).trans_date
          payee := g.map Row.payee
          location := (g.headD default).location
          country := (g.headD default).country
          original_currency := (g.headD default).original_currency
          original_amount := (g.headD default).original_amount
          hkd_amount := (g.headD default).hkd_amount }) :=
  ⟨groupRows rows, groupRows_flatten rows, groupRows_ne_nil rows,
    groupRows_tail_not_boundary rows, groupRows_tail_heads rows,
    fun h => groupRows_heads_boundary rows h, rfl⟩

/-- C1 witness: the theorem applied to a concrete cleaned sequence of one
boundary row, one continuation row and a second boundary row. -/
theorem merge_rows_grouping_witness :
    ∃ P : List (List Row),
      P.flatten = [⟨"1Jan", "2Jan", "SHOP", "", "", "", "", "10.00"⟩,
        ⟨"", "", "extra", "", "", "", "", ""⟩,
        ⟨"3Jan", "", "B", "", "", "", "", "5CR"⟩] ∧
      (∀ g ∈ P, g ≠ []) ∧
      (∀ g ∈ P, ∀ x ∈ g.tail, isBoundary x = false) ∧
      (∀ g ∈ P.tail, isBoundary (g.headD default) = true) ∧
      ((∀ x, ([⟨"1Jan", "2Jan", "SHOP", "", "", "", "", "10.00"⟩,
          ⟨"", "", "extra", "", "", "", "", ""⟩,
          ⟨"3Jan", "", "B", "", "", "", "", "5CR"⟩] :
            List Row).head? = some x → isBoundary x = true) →
        ∀ g ∈ P, isBoundary (g.headD default) = true) ∧
      mergeRows [⟨"1Jan", "2Jan", "SHOP", "", "", "", "", "10.00"⟩,
        ⟨"", "", "extra", "", "", "", "", ""⟩,
        ⟨"3Jan", "", "B", "", "", "", "", "5CR"⟩] = P.map (fun g =>
        { post_date := (g.headD default).post_date
          trans_date := (g.headD default).trans_date
          payee := g.map Row.payee
          location := (g.headD default).location
          country := (g.headD default).country
          original_currency := (g.headD default).original_currency
          original_amount := (g.headD default).original_amount
          hkd_amount := (g.headD default).hkd_amount }) :=
  merge_rows_grouping [⟨"1Jan", "2Jan", "SHOP", "", "", "", "", "10.00"⟩,
    ⟨"", "", "extra", "", "", "", "", ""⟩,
    ⟨"3Jan", "", "B", "", "", "", "", "5CR"⟩]

theorem mergeRows_nil : mergeRows [] = [] := by
  rw [mergeRows, groupRows]
  rfl

theorem dateOfCell_ok_iff (stmt : PyDate) (c : String) :
    (∃ s, dateOfCell stmt c = .ok s) ↔ (∃ v, strptimeDayMonth c = some v) := by
  unfold dateOfCell parse_and_add_year_to_date resolveTransactionDate
  cases hv : strptimeDayMonth c with
  | none => simp
  | some v => simp

theorem dateOfCell_empty (stmt : PyDate) :
    dateOfCell stmt "" =
      .error ("ValueError: time data " ++ "" ++
        " does not match format %d%b") := rfl

theorem convert_ok_dates (table : List Row) (stmt : PyDate)
    (out : List OutRow)
    (hok : convert_and_process_dataframe table stmt = .ok out) :
    ∀ g ∈ mergeRows table,
      (∃ s, dateOfCell stmt g.post_date = .ok s) ∧
      (∃ s, dateOfCell stmt g.trans_date = .ok s) := by
  by_cases htab : table = []
  · subst htab
    intro g hg
    rw [mergeRows_nil] at hg
    cases hg
  · unfold convert_and_process_dataframe at hok
    rw [if_neg htab] at hok
    dsimp only at hok
    cases h1 : (mergeRows table).mapM memoOfGroup with
    | error e => rw [h1] at hok; cases hok
    | ok ms =>
      rw [h1] at hok
      cases h2 : (mergeRows table).mapM
          (fun g => dateOfCell stmt g.post_date) with
      | error e => rw [h2] at hok; cases hok
      | ok ps =>
        rw [h2] at hok
        cases h3 : (mergeRows table).mapM
            (fun g => dateOfCell stmt g.trans_date) with
        | error e => rw [h3] at hok; cases hok
        | ok ts =>
          intro g hg
          exact ⟨exceptMapM_ok_mem _ (mergeRows table) ps h2 g hg,
            exceptMapM_ok_mem _ (mergeRows table) ts h3 g hg⟩

/-- C9: the record formatter date-parses both post_date and trans_date of
every merged group, and parsing the empty string fails; hence a group whose
first row has exactly one of the two dates non-empty makes the whole
conversion fail, and the conversion succeeds only when every group's first
row has both date fields non-empty and parseable as
day+abbreviated-month. -/
theorem date_parse_totality :
    strptimeDayMonth "" = none ∧
    (∀ (table : List Row) (stmt : PyDate),
      (∃ g ∈ mergeRows table,
        (g.post_date = "" ∧ g.trans_date ≠ "") ∨
        (g.post_date ≠ "" ∧ g.trans_date = "")) →
      ∀ out, convert_and_process_dataframe table stmt ≠ .ok out) ∧
    (∀ (table : List Row) (stmt : PyDate) (out : List OutRow),
      convert_and_process_dataframe table stmt = .ok out →
      ∀ g ∈ mergeRows table,
        (∃ v, strptimeDayMonth g.post_date = some v) ∧
        (∃ v, strptimeDayMonth g.trans_date = some v) ∧
        g.post_date ≠ "" ∧ g.trans_date ≠ "") := by
  have hfail : ∀ (stmt : PyDate) (c : String), c = "" →
      ¬ ∃ s, dateOfCell stmt c = .ok s := by
    rintro stmt c rfl ⟨s, hs⟩
    rw [dateOfCell_empty] at hs
    cases hs
  refine ⟨rfl, ?_, ?_⟩
  · rintro table stmt ⟨g, hg, hbad⟩ out hok
    obtain ⟨hpost, htrans⟩ := convert_ok_dates table stmt out hok g hg
    rcases hbad with ⟨hp, _⟩ | ⟨_, ht⟩
    · exact hfail stmt g.post_date hp hpost
    · exact hfail stmt g.trans_date ht htrans
  · intro table stmt out hok g hg
    obtain ⟨hpost, htrans⟩ := convert_ok_dates table stmt out hok g hg
    refine ⟨(dateOfCell_ok_iff stmt g.post_date).mp hpost,
      (dateOfCell_ok_iff stmt g.trans_date).mp htrans, ?_, ?_⟩
    · intro he; exact hfail stmt g.post_date he hpost
    · intro he; exact hfail stmt g.trans_date he htrans

/-- C9 witness: a single-group table whose first row has a parseable
post_date but an empty trans_date never converts successfully. -/
theorem date_parse_totality_witness :
    ¬ ∃ out, convert_and_process_dataframe
      [⟨"15Dec", "", "S", "", "", "", "", "1"⟩] ⟨2024, 1, 10⟩ =
        .ok out := by
  rintro ⟨out, hout⟩
  have hmr : mergeRows [⟨"15Dec", "", "S", "", "", "", "", "1"⟩] =
      [⟨"15Dec", "", ["S"], "", "", "", "", "1"⟩] := by
    simp [mergeRows, groupRows, aggGroup]
  refine date_parse_totality.2.1 [⟨"15Dec", "", "S", "", "", "", "", "1"⟩]
    ⟨2024, 1, 10⟩ ⟨⟨"15Dec", "", ["S"], "", "", "", "", "1"⟩, ?_, ?_⟩
    out hout
  · rw [hmr]
    exact List.mem_singleton.mpr rfl
  · right
    exact ⟨by decide, rfl⟩

/-- C6: the cleaning step keeps exactly the contiguous block of rows
between the head trim (all leading rows whose first two cells — post_date
and trans_date — are empty) and the tail trim (the rows from the first
footer-marker row onward), in order.  The last conjunct ties the `row[:2]`
test to the first two schema cells for well-formed 8-cell rows. -/
theorem clean_rows_trim (rows : List (List String)) :
    ∃ pre post,
      rows = pre ++ cleanRows rows ++ post ∧
      (∀ r ∈ pre, firstTwoCellsEmpty r = true) ∧
      (∀ r ∈ cleanRows rows, rowHasFooterMarker r = false) ∧
      (cleanRows rows ≠ [] →
        firstTwoCellsEmpty ((cleanRows rows).headD []) = false) ∧
      (post ≠ [] → rowHasFooterMarker (post.headD []) = true) ∧
      (cleanRows rows = [] → post ≠ [] →
        firstTwoCellsEmpty (post.headD []) = false) ∧
      (∀ r : List String, r.length = 8 →
        (firstTwoCellsEmpty r = true ↔
          (r.getD 0 "" = "" ∧ r.getD 1 "" = ""))) := by
  refine ⟨rows.takeWhile firstTwoCellsEmpty,
    (rows.dropWhile firstTwoCellsEmpty).dropWhile
      (fun r => !rowHasFooterMarker r), ?_, ?_, ?_, ?_, ?_, ?_, ?_⟩
  · rw [show cleanRows rows = (rows.dropWhile firstTwoCellsEmpty).takeWhile
        (fun r => !rowHasFooterMarker r) from rfl,
      List.append_assoc, List.takeWhile_append_dropWhile,
      List.takeWhile_append_dropWhile]
  · intro r hr
    exact List.mem_takeWhile_imp hr
  · intro r hr
    have := List.mem_takeWhile_imp hr
    simpa using this
  · intro hne
    cases hcl : cleanRows rows with
    | nil => exact absurd hcl hne
    | cons x xs =>
      have hx := takeWhile_head? (fun r => !rowHasFooterMarker r)
        (rows.dropWhile firstTwoCellsEmpty) x xs hcl
      cases hmid : rows.dropWhile firstTwoCellsEmpty with
      | nil => rw [hmid] at hx; cases hx.1
      | cons y ys =>
        rw [hmid] at hx
        have hxy : y = x := by
          have := hx.1
          simpa using this
        subst hxy
        simp only [List.headD]
        exact dropWhile_head_false firstTwoCellsEmpty rows y ys hmid
  · intro hpost
    cases hp : (rows.dropWhile firstTwoCellsEmpty).dropWhile
        (fun r => !rowHasFooterMarker r) with
    | nil => exact absurd hp hpost
    | cons z zs =>
      have := dropWhile_head_false (fun r => !rowHasFooterMarker r)
        (rows.dropWhile firstTwoCellsEmpty) z zs hp
      simp only [List.headD]
      simpa using this
  · intro hcl hpost
    have hdw : (rows.dropWhile firstTwoCellsEmpty).dropWhile
        (fun r => !rowHasFooterMarker r) = rows.dropWhile firstTwoCellsEmpty :=
      takeWhile_nil_dropWhile _ _ hcl
    rw [hdw] at hpost ⊢
    cases hmid : rows.dropWhile firstTwoCellsEmpty with
    | nil => rw [hmid] at hpost; exact absurd rfl hpost
    | cons y ys =>
      simp only [List.headD]
      exact dropWhile_head_false firstTwoCellsEmpty rows y ys hmid
  · intro r hlen
    match r, hlen with
    | a :: b :: rest, _ =>
      unfold firstTwoCellsEmpty
      constructor
      · intro h
        have h' : a :: b :: [] = ["", ""] := by
          have : (a :: b :: rest).take 2 = [a, b] := rfl
          rw [this] at *
          exact of_decide_eq_true h
        cases h'
        exact ⟨rfl, rfl⟩
      · rintro ⟨ha, hb⟩
        have ha' : a = "" := ha
        have hb' : b = "" := hb
        subst ha' hb'
        rfl

/-- C6 witness: the theorem applied to a concrete flattened sequence with
leading boilerplate, two kept rows, a footer row and a trailing row. -/
theorem clean_rows_trim_witness :
    ∃ pre post,
      [["", "", "prev"], ["1Jan", "", "shop"], ["", "", "detail"],
       ["*For credit card transactions effected in currencies x"],
       ["after"]] =
        pre ++ cleanRows [["", "", "prev"], ["1Jan", "", "shop"],
          ["", "", "detail"],
          ["*For credit card transactions effected in currencies x"],
          ["after"]] ++ post ∧
      (∀ r ∈ pre, firstTwoCellsEmpty r = true) ∧
      (∀ r ∈ cleanRows [["", "", "prev"], ["1Jan", "", "shop"],
          ["", "", "detail"],
          ["*For credit card transactions effected in currencies x"],
          ["after"]], rowHasFooterMarker r = false) ∧
      (cleanRows [["", "", "prev"], ["1Jan", "", "shop"], ["", "", "detail"],
          ["*For credit card transactions effected in currencies x"],
          ["after"]] ≠ [] →
        firstTwoCellsEmpty ((cleanRows [["", "", "prev"], ["1Jan", "", "shop"],
          ["", "", "detail"],
          ["*For credit card transactions effected in currencies x"],
          ["after"]]).headD []) = false) ∧
      (post ≠ [] → rowHasFooterMarker (post.headD []) = true) ∧
      (cleanRows [["", "", "prev"], ["1Jan", "", "shop"], ["", "", "detail"],
          ["*For credit card transactions effected in currencies x"],
          ["after"]] = [] → post ≠ [] →
        firstTwoCellsEmpty (post.headD []) = false) ∧
      (∀ r : List String, r.length = 8 →
        (firstTwoCellsEmpty r = true ↔
          (r.getD 0 "" = "" ∧ r.getD 1 "" = ""))) :=
  clean_rows_trim [["", "", "prev"], ["1Jan", "", "shop"], ["", "", "detail"],
    ["*For credit card transactions effected in currencies x"], ["after"]]

/-- C4 witness: the general statement applied at the spec's example row. -/
theorem memo_composition_witness :
    create_memo ["ACME STORE", "ref 123"] "" "US" "" "" =
      some (if memoPartsSpec ["ACME STORE", "ref 123"] "" "US" "" "" = []
            then importInfoText
            else String.intercalate "; "
                   (memoPartsSpec ["ACME STORE", "ref 123"] "" "US" "" "")
                 ++ " // " ++ importInfoText) :=
  (memo_composition ["ACME STORE", "ref 123"] "" "US" "" ""
    (by simp)).1

end HsbcHkCc
